import Mathlib

/-!
Verification of the tumbling-window Wikipedia recent-changes ETL
(`src/iv_wikipedia_etl.py`, classes `ApiConfig` and `IvWikipediaData`).

Shallow embedding conventions:
* Timestamps are seconds since the Unix epoch, as `Int`.  Python's
  `datetime` arithmetic (`combine`, `timedelta`) is exact second
  arithmetic, and `strftime("%Y-%m-%dT%H:%M:%SZ")` is an injective
  rendering of an instant, so the ISO strings the source passes around
  are modelled by the instants themselves.
* The input date string `'YYYY-MM-DD'` of `_get_api_data` is modelled as
  the triple `(y, m, d)`; `datetime.date` arithmetic is modelled by the
  standard civil-from-days conversion (`daysFromCivil`).
* `requests.get` is modelled by an oracle `ApiParams → Response`
  supplied as a parameter: one run sends each parameter set at most
  once, so a function of the parameters captures one run's responses.
* A parsed response body `response.json()['query']['recentchanges']` is
  a list of JSON objects; each object is an `EditRow` whose fields are
  `Option`s (`none` models a key absent from the object, which pandas
  turns into a null/NaN cell).  A body without that path (KeyError in
  the source) is `records = none`.
* `raise SystemExit(...)` is modelled as `Except.error` with the error
  taxonomy of the spec (`FetchError`): the status-code branch is
  `requestFailed`, the max-records branch is `windowSaturated`, and a
  missing JSON path is `malformedResponse`.
-/

namespace IvWiki

/-- One tumbling window.  `windowEnd` is the chronologically earlier
bound (the source's `rcend_str`, the cursor before advancing) and
`windowStart` the chronologically later bound (the source's
`rcstart_str`); the inclusive range of instants it covers is
`[windowEnd, windowStart]`. -/
structure WindowSpec where
  windowEnd : Int
  windowStart : Int
deriving DecidableEq, Repr

/-- `ApiConfig` dataclass (source lines 45-57): plain record, no
validation of any field. -/
structure ApiConfig where
  base_url : String
  limit : Nat
  tumbling_window_size : Int
deriving DecidableEq, Repr

/-- The dataclass defaults of `ApiConfig`. -/
def defaultApiConfig : ApiConfig :=
  ⟨"https://en.wikipedia.org/w/api.php", 500, 30⟩

/-- One row of the parsed recent-changes list.  Every field is optional:
a key absent from the JSON object is `none` (pandas stores NaN/null in
that cell and keeps the row). -/
structure EditRow where
  type : Option String
  ns : Option Int
  title : Option String
  user : Option String
  userid : Option Int
  bot : Option Bool
  oldlen : Option Int
  newlen : Option Int
  timestamp : Option Int
  comment : Option String
  minor : Option Bool
  anon : Option Bool
  new : Option Bool
deriving DecidableEq, Repr

/-- A JSON object with none of the expected keys at all (`{}`). -/
def emptyRow : EditRow :=
  ⟨none, none, none, none, none, none, none, none, none, none, none, none, none⟩

/-- The query-parameter dictionary built by `_get_api_params`
(source lines 108-130).  `rcstart` and `rcend` are instants (the source
formats them as ISO strings). -/
structure ApiParams where
  action : String
  format : String
  list : String
  rcstart : Int
  rcend : Int
  rclimit : Nat
  rcprop : String
deriving DecidableEq, Repr

/-- `_get_api_params(rcstart, rcend)` (source lines 108-130). -/
def getApiParams (cfg : ApiConfig) (rcstart rcend : Int) : ApiParams :=
  { action := "query"
    format := "json"
    list := "recentchanges"
    rcstart := rcstart
    rcend := rcend
    rclimit := cfg.limit
    rcprop := "title|timestamp|userid|user|comment|flags|sizes" }

/-- The parameters `_fetch_tumbling_window_data(start_time, end_time)`
actually sends: source line 148 is `self._get_api_params(end_time,
start_time)` — the arguments are swapped, so `rcstart` receives
`end_time` and `rcend` receives `start_time`. -/
def sentParams (cfg : ApiConfig) (startTime endTime : Int) : ApiParams :=
  getApiParams cfg endTime startTime

/-- One HTTP response: status code, body text, and the parsed list at
`json()['query']['recentchanges']` (`none` when the path is missing). -/
structure Response where
  statusCode : Nat
  body : String
  records : Option (List EditRow)
deriving DecidableEq, Repr

/-- The spec's `FetchError` taxonomy for the fatal `SystemExit`s of
`_fetch_tumbling_window_data`. -/
inductive FetchError where
  | requestFailed (statusCode : Nat) (body : String)
  | windowSaturated
  | malformedResponse
deriving DecidableEq, Repr

/-- `_fetch_tumbling_window_data(start_time, end_time)` (source lines
132-168).  `start_time` is the chronologically earlier bound and
`end_time` the later one (the source's docstring calls this confusing
on purpose).  Status ≠ 200 aborts with the status and body; a body
without the records path aborts as malformed; a batch of exactly
`cfg.limit` rows aborts as saturated; otherwise the parsed rows are
returned unchanged. -/
def fetchTumblingWindowData (cfg : ApiConfig) (oracle : ApiParams → Response)
    (startTime endTime : Int) : Except FetchError (List EditRow) :=
  let params := sentParams cfg startTime endTime
  let response := oracle params
  if response.statusCode ≠ 200 then
    .error (.requestFailed response.statusCode response.body)
  else
    match response.records with
    | none => .error .malformedResponse
    | some editRecords =>
        if editRecords.length = cfg.limit then .error .windowSaturated
        else .ok editRecords

/-- The window computation of the loop of `_get_api_data` (source lines
186-200), separated from the fetching: starting from cursor `c`, while
`c < e` emit the window `[c, min (c + W - 1) e]` and advance the cursor
by `W`.  The `fuel` argument only bounds the number of iterations so
that the definition is total; `planWindows` supplies enough fuel for
every positive `W` (for `W ≤ 0` the source loop never terminates). -/
def planWindowsAux (W e : Int) : Nat → Int → List WindowSpec
  | 0, _ => []
  | n + 1, c =>
      if c < e then
        ⟨c, min (c + W - 1) e⟩ :: planWindowsAux W e n (c + W)
      else []

/-- All windows the loop of `_get_api_data` emits for cursor range
`[s, e)` with window size `W`. -/
def planWindows (W s e : Int) : List WindowSpec :=
  planWindowsAux W e ((e - s).toNat + 1) s

/-- Days since 1970-01-01 of the civil date `y-m-d` (standard
days-from-civil conversion; models `datetime.date`). -/
def daysFromCivil (y m d : Int) : Int :=
  let yy := if m ≤ 2 then y - 1 else y
  let era := (if 0 ≤ yy then yy else yy - 399) / 400
  let yoe := yy - era * 400
  let mp := if 2 < m then m - 3 else m + 9
  let doy := (153 * mp + 2) / 5 + d - 1
  let doe := yoe * 365 + yoe / 4 - yoe / 100 + doy
  era * 146097 + doe - 719468

/-- `datetime.combine(target_date, time(0, 0, 0))` as an epoch instant:
midnight of the given civil date (source line 181). -/
def dayStartEpoch (y m d : Int) : Int := 86400 * daysFromCivil y m d

/-- `start_time + timedelta(days=1) - timedelta(seconds=1)`:
the day's final second, 23:59:59 (source line 182). -/
def dayEndEpoch (y m d : Int) : Int := dayStartEpoch y m d + 86400 - 1

/-- The windows the planning loop emits for one whole day. -/
def dayWindows (W y m d : Int) : List WindowSpec :=
  planWindows W (dayStartEpoch y m d) (dayEndEpoch y m d)

/-- Inclusive width in seconds of a window's `[windowEnd, windowStart]`
range. -/
def windowWidth (w : WindowSpec) : Int := w.windowStart - w.windowEnd + 1

deriving instance DecidableEq for Except

/-- Result of one run of `_get_api_data`: the outcome (final dataframe
or the fatal error) together with the parameter sets that were logged
and sent, in order (source line 150 logs every parameter set just
before its request). -/
structure RunResult where
  outcome : Except FetchError (List EditRow)
  requested : List ApiParams
deriving DecidableEq, Repr

/-- The loop of `_get_api_data` (source lines 184-212): plan the next
window from the cursor, fetch it, append the batch to the accumulated
dataframe (`pd.concat`, source line 206), and continue; a fetch error
aborts the whole run.  `fuel` bounds iterations as in
`planWindowsAux`. -/
def getApiDataAux (cfg : ApiConfig) (oracle : ApiParams → Response) (e : Int) :
    Nat → Int → List EditRow → List ApiParams → RunResult
  | 0, _, df, req => ⟨.ok df, req⟩
  | n + 1, c, df, req =>
      if c < e then
        let wEnd := min (c + cfg.tumbling_window_size - 1) e
        let params := sentParams cfg c wEnd
        match fetchTumblingWindowData cfg oracle c wEnd with
        | .error err => ⟨.error err, req ++ [params]⟩
        | .ok batch =>
            getApiDataAux cfg oracle e n (c + cfg.tumbling_window_size)
              (df ++ batch) (req ++ [params])
      else ⟨.ok df, req⟩

/-- `_get_api_data(input_date)` (source lines 170-212), with the date
string modelled as the civil triple `(y, m, d)` and the accumulated
dataframe starting empty (source line 78). -/
def getApiData (cfg : ApiConfig) (oracle : ApiParams → Response)
    (y m d : Int) : RunResult :=
  let startTime := dayStartEpoch y m d
  let endTime := dayEndEpoch y m d
  getApiDataAux cfg oracle endTime ((endTime - startTime).toNat + 1) startTime [] []

/-- Fetch-and-merge over an explicit list of windows.  This is not a
separate function of the source: `getApiDataAux_eq_processWindows`
proves that the interleaved loop of `_get_api_data` equals planning
followed by this fold, which the run-level proofs use. -/
def processWindows (cfg : ApiConfig) (oracle : ApiParams → Response) :
    List WindowSpec → List EditRow → List ApiParams → RunResult
  | [], df, req => ⟨.ok df, req⟩
  | w :: ws, df, req =>
      let params := sentParams cfg w.windowEnd w.windowStart
      match fetchTumblingWindowData cfg oracle w.windowEnd w.windowStart with
      | .error err => ⟨.error err, req ++ [params]⟩
      | .ok batch => processWindows cfg oracle ws (df ++ batch) (req ++ [params])

/-- The response the oracle gives to the parameters sent for window
`w`. -/
def responseAt (cfg : ApiConfig) (oracle : ApiParams → Response)
    (w : WindowSpec) : Response :=
  oracle (sentParams cfg w.windowEnd w.windowStart)

/-- The parsed batch of window `w`'s response (empty when the records
path is missing). -/
def batchOf (cfg : ApiConfig) (oracle : ApiParams → Response)
    (w : WindowSpec) : List EditRow :=
  (responseAt cfg oracle w).records.getD []

/-- A response on which `_fetch_tumbling_window_data` succeeds: status
200, records present, batch size different from the limit. -/
def respOk (cfg : ApiConfig) (r : Response) : Prop :=
  r.statusCode = 200 ∧ ∃ rs, r.records = some rs ∧ rs.length ≠ cfg.limit

/-- The narrow projection `SELECT type, title, user, userid, timestamp,
comment` of `_save_to_duckdb` (source line 249). -/
structure ProjRow where
  type : Option String
  title : Option String
  user : Option String
  userid : Option Int
  timestamp : Option Int
  comment : Option String
deriving DecidableEq, Repr

/-- Projection of one accumulated row onto the persisted columns. -/
def projectRow (r : EditRow) : ProjRow :=
  ⟨r.type, r.title, r.user, r.userid, r.timestamp, r.comment⟩

/-- The analytical store: tables keyed by `schema.table` name. -/
structure Store where
  tables : List (String × List ProjRow)
deriving DecidableEq, Repr

/-- `_save_to_duckdb` (source lines 214-251): drop the target table if
present, recreate it, and insert the projected rows — a full replace of
`schema.table`. -/
def saveToDuckdb (df : List EditRow) (store : Store)
    (tableName schema : String) : Store :=
  let fullTableName := schema ++ "." ++ tableName
  ⟨(fullTableName, df.map projectRow) ::
    store.tables.filter (fun t => t.1 ≠ fullTableName)⟩

/-- The `__main__` driver (source lines 254-281): run the extraction;
on success save to the store, on any raised error log it and leave the
store untouched. -/
def runPipeline (cfg : ApiConfig) (oracle : ApiParams → Response)
    (y m d : Int) (tableName schema : String) (store : Store) : Store :=
  match (getApiData cfg oracle y m d).outcome with
  | .ok df => saveToDuckdb df store tableName schema
  | .error _ => store

/-- `IvWikipediaData.__init__` (source lines 71-78): `self.config =
config or ApiConfig()` and an empty dataframe — no validation of any
configuration value. -/
def ivWikipediaDataInit (config : Option ApiConfig) : ApiConfig × List EditRow :=
  ⟨config.getD defaultApiConfig, []⟩

/-! ### Concrete fixtures for witnesses and counterexamples -/

/-- A configuration with two windows per day (43200-second windows),
otherwise the dataclass defaults. -/
def cfg43200 : ApiConfig := ⟨"https://en.wikipedia.org/w/api.php", 500, 43200⟩

/-- Midnight of 2024-10-31 (the source's hardcoded target date). -/
def startOct31 : Int := dayStartEpoch 2024 10 31

/-- The first window of 2024-10-31 at `W = 43200`. -/
def w0Oct31 : WindowSpec := ⟨startOct31, startOct31 + 43199⟩

/-- The second window of 2024-10-31 at `W = 43200`. -/
def w1Oct31 : WindowSpec := ⟨startOct31 + 43200, startOct31 + 86399⟩

/-- A response row whose `userid` key is absent from the JSON object. -/
def sampleRow : EditRow :=
  ⟨some "edit", some 0, some "Sample page", some "SampleUser", none,
    some false, some 100, some 120, some 1730332815, some "a comment",
    some false, some true, some false⟩

/-- An oracle answering the first half-day window with one row missing
`userid`, and every other window with one row that has no recognizable
fields at all. -/
def oracleHalfDay : ApiParams → Response := fun p =>
  if p.rcend = dayStartEpoch 2024 10 31 then ⟨200, "", some [sampleRow]⟩
  else ⟨200, "", some [emptyRow]⟩

/-- An oracle that answers every request with HTTP 503. -/
def oracle503 : ApiParams → Response := fun _ =>
  ⟨503, "Service Unavailable", none⟩

/-! ### Planner lemmas -/

theorem planWindowsAux_nil (W e : Int) (n : Nat) (c : Int) (h : ¬ c < e) :
    planWindowsAux W e n c = [] := by
  cases n <;> simp [planWindowsAux, h]

theorem planWindowsAux_cons (W e : Int) (n : Nat) (c : Int) (h : c < e) :
    planWindowsAux W e (n + 1) c =
      ⟨c, min (c + W - 1) e⟩ :: planWindowsAux W e n (c + W) := by
  simp [planWindowsAux, h]

theorem mem_planWindowsAux {W e : Int} (hW : 0 < W) :
    ∀ (n : Nat) (c : Int), ∀ w ∈ planWindowsAux W e n c,
      c ≤ w.windowEnd ∧ w.windowEnd ≤ w.windowStart ∧ w.windowStart ≤ e ∧
        w.windowStart + 1 ≤ w.windowEnd + W := by
  intro n
  induction n with
  | zero => intro c w hw; simp [planWindowsAux] at hw
  | succ n ih =>
      intro c w hw
      by_cases hc : c < e
      · rw [planWindowsAux_cons W e n c hc] at hw
        have hm1 := min_le_left (c + W - 1) e
        have hm2 := min_le_right (c + W - 1) e
        have hm3 : c ≤ min (c + W - 1) e := le_min (by omega) (by omega)
        rcases List.mem_cons.mp hw with rfl | hw2
        · refine ⟨le_refl c, hm3, hm2, ?_⟩
          show min (c + W - 1) e + 1 ≤ c + W
          omega
        · have := ih (c + W) w hw2
          omega
      · rw [planWindowsAux_nil W e _ c hc] at hw
        simp at hw

theorem planWindowsAux_head {W e : Int} {n : Nat} {c : Int} {b : WindowSpec}
    (h : (planWindowsAux W e n c).head? = some b) :
    b = ⟨c, min (c + W - 1) e⟩ ∧ c < e := by
  cases n with
  | zero => simp [planWindowsAux] at h
  | succ n =>
      by_cases hc : c < e
      · rw [planWindowsAux_cons W e n c hc] at h
        simp at h
        exact ⟨h.symm, hc⟩
      · rw [planWindowsAux_nil W e _ c hc] at h
        simp at h

theorem planWindowsAux_chain {W e : Int} (hW : 0 < W) :
    ∀ (n : Nat) (c : Int),
      List.Chain' (fun a b => b.windowEnd = a.windowStart + 1)
        (planWindowsAux W e n c) := by
  intro n
  induction n with
  | zero => intro c; simp [planWindowsAux]
  | succ n ih =>
      intro c
      by_cases hc : c < e
      · rw [planWindowsAux_cons W e n c hc]
        refine List.chain'_cons'.mpr ⟨?_, ih (c + W)⟩
        intro b hb
        obtain ⟨rfl, hlt⟩ := planWindowsAux_head (Option.mem_def.mp hb)
        have : min (c + W - 1) e = c + W - 1 := min_eq_left (by omega)
        simp [this]
      · rw [planWindowsAux_nil W e _ c hc]
        exact List.chain'_nil

theorem planWindowsAux_pairwise {W e : Int} (hW : 0 < W) :
    ∀ (n : Nat) (c : Int),
      List.Pairwise (fun a b => a.windowStart < b.windowEnd)
        (planWindowsAux W e n c) := by
  intro n
  induction n with
  | zero => intro c; simp [planWindowsAux]
  | succ n ih =>
      intro c
      by_cases hc : c < e
      · rw [planWindowsAux_cons W e n c hc]
        refine List.pairwise_cons.mpr ⟨?_, ih (c + W)⟩
        intro b hb
        have hmem := mem_planWindowsAux hW n (c + W) b hb
        have hm1 := min_le_left (c + W - 1) e
        show min (c + W - 1) e < b.windowEnd
        omega
      · rw [planWindowsAux_nil W e _ c hc]
        exact List.Pairwise.nil

theorem planWindowsAux_ne_nil {W e : Int} {n : Nat} {c : Int}
    (h : planWindowsAux W e n c ≠ []) : c < e := by
  by_contra hc
  exact h (planWindowsAux_nil W e n c hc)

theorem planWindowsAux_dropLast_width {W e : Int} (hW : 0 < W) :
    ∀ (n : Nat) (c : Int), ∀ w ∈ (planWindowsAux W e n c).dropLast,
      w.windowStart - w.windowEnd + 1 = W := by
  intro n
  induction n with
  | zero => intro c w hw; simp [planWindowsAux] at hw
  | succ n ih =>
      intro c w hw
      by_cases hc : c < e
      · rw [planWindowsAux_cons W e n c hc] at hw
        rcases ht : planWindowsAux W e n (c + W) with _ | ⟨b, t2⟩
        · rw [ht] at hw; simp at hw
        · rw [ht] at hw
          rw [List.dropLast_cons₂] at hw
          rcases List.mem_cons.mp hw with rfl | hw2
          · have hlt : c + W < e := planWindowsAux_ne_nil (ht ▸ List.cons_ne_nil b t2)
            have : min (c + W - 1) e = c + W - 1 := min_eq_left (by omega)
            show min (c + W - 1) e - c + 1 = W
            omega
          · have := ih (c + W) w (ht ▸ hw2)
            exact this
      · rw [planWindowsAux_nil W e _ c hc] at hw
        simp at hw

theorem planWindowsAux_getLast {W e : Int} (hW : 0 < W) :
    ∀ (n : Nat) (c : Int), (e - c).toNat < n → c < e → ¬ W ∣ (e - c) →
      ∃ w, (planWindowsAux W e n c).getLast? = some w ∧ w.windowStart = e := by
  intro n
  induction n with
  | zero => intro c hn hc _; omega
  | succ n ih =>
      intro c hn hc hdvd
      rw [planWindowsAux_cons W e n c hc]
      by_cases hce : c + W < e
      · have hdvd2 : ¬ W ∣ (e - (c + W)) := by
          intro h
          have h2 := dvd_add h (dvd_refl W)
          have h3 : e - (c + W) + W = e - c := by ring
          exact hdvd (h3 ▸ h2)
        obtain ⟨w, hw1, hw2⟩ := ih (c + W) (by omega) hce hdvd2
        rcases ht : planWindowsAux W e n (c + W) with _ | ⟨b, t2⟩
        · rw [ht] at hw1; simp at hw1
        · refine ⟨w, ?_, hw2⟩
          rw [List.getLast?_cons_cons]
          rw [ht] at hw1
          exact hw1
      · have hne : c + W ≠ e := by
          intro h
          exact hdvd ⟨1, by omega⟩
        have ht : planWindowsAux W e n (c + W) = [] :=
          planWindowsAux_nil W e n (c + W) hce
        rw [ht]
        refine ⟨⟨c, min (c + W - 1) e⟩, by simp, ?_⟩
        simp only []
        exact min_eq_right (by omega)

theorem planWindowsAux_length {W e : Int} (hW : 0 < W) :
    ∀ (n : Nat) (c : Int), (e - c).toNat < n →
      (planWindowsAux W e n c).length = ((e - c + W - 1) / W).toNat := by
  intro n
  induction n with
  | zero => intro c hn; omega
  | succ n ih =>
      intro c hn
      by_cases hc : c < e
      · rw [planWindowsAux_cons W e n c hc]
        rw [List.length_cons, ih (c + W) (by omega)]
        have h1 : e - (c + W) + W - 1 = e - c - 1 := by ring
        rw [h1]
        have h2 : (e - c - 1 + 1 * W) / W = (e - c - 1) / W + 1 :=
          Int.add_mul_ediv_right (e - c - 1) 1 (by omega)
        have h3 : e - c - 1 + 1 * W = e - c + W - 1 := by ring
        rw [h3] at h2
        have h4 : 0 ≤ (e - c - 1) / W := Int.ediv_nonneg (by omega) (by omega)
        omega
      · rw [planWindowsAux_nil W e _ c hc]
        have h1 : (e - c + W - 1) / W < 1 := by
          rw [Int.ediv_lt_iff_lt_mul (by omega)]
          omega
        simp only [List.length_nil]
        omega

theorem planWindowsAux_width_dvd {W e : Int} (hW : 0 < W) :
    ∀ (n : Nat) (c : Int), W ∣ (e - c + 1) →
      ∀ w ∈ planWindowsAux W e n c, w.windowStart - w.windowEnd + 1 = W := by
  intro n
  induction n with
  | zero => intro c _ w hw; simp [planWindowsAux] at hw
  | succ n ih =>
      intro c hdvd w hw
      by_cases hc : c < e
      · rw [planWindowsAux_cons W e n c hc] at hw
        have hle : W ≤ e - c + 1 := Int.le_of_dvd (by omega) hdvd
        rcases List.mem_cons.mp hw with rfl | hw2
        · have : min (c + W - 1) e = c + W - 1 := min_eq_left (by omega)
          show min (c + W - 1) e - c + 1 = W
          omega
        · refine ih (c + W) ?_ w hw2
          have h2 : e - (c + W) + 1 = (e - c + 1) - W := by ring
          rw [h2]
          exact dvd_sub hdvd (dvd_refl W)
      · rw [planWindowsAux_nil W e _ c hc] at hw
        simp at hw

theorem planWindowsAux_cover {W e : Int} (hW : 0 < W) :
    ∀ (n : Nat) (c t : Int), (e - c).toNat < n → c ≤ t → t ≤ e → ¬ W ∣ (e - c) →
      ∃ w ∈ planWindowsAux W e n c, w.windowEnd ≤ t ∧ t ≤ w.windowStart := by
  intro n
  induction n with
  | zero => intro c t hn hct hte _; omega
  | succ n ih =>
      intro c t hn hct hte hdvd
      have hc : c < e := by
        rcases lt_or_eq_of_le (le_trans hct hte) with h | h
        · exact h
        · exfalso
          apply hdvd
          rw [h]
          simp
      rw [planWindowsAux_cons W e n c hc]
      by_cases hcov : t ≤ min (c + W - 1) e
      · exact ⟨⟨c, min (c + W - 1) e⟩, List.mem_cons_self _ _, hct, hcov⟩
      · rcases le_or_lt (c + W - 1) e with h1 | h1
        · have hmin : min (c + W - 1) e = c + W - 1 := min_eq_left h1
          rw [hmin] at hcov
          have hct2 : c + W ≤ t := by omega
          have hdvd2 : ¬ W ∣ (e - (c + W)) := by
            intro h
            have h2 := dvd_add h (dvd_refl W)
            have h3 : e - (c + W) + W = e - c := by ring
            exact hdvd (h3 ▸ h2)
          obtain ⟨w, hw, hw1, hw2⟩ := ih (c + W) t (by omega) hct2 hte hdvd2
          exact ⟨w, List.mem_cons_of_mem _ hw, hw1, hw2⟩
        · have hmin : min (c + W - 1) e = e := min_eq_right (by omega)
          rw [hmin] at hcov
          exact absurd hte hcov

theorem dayEnd_sub_dayStart (y m d : Int) :
    dayEndEpoch y m d - dayStartEpoch y m d = 86399 := by
  simp only [dayEndEpoch]
  omega

/-- C1 (amended): for every date and every window size `W > 0` the
windows emitted by the planning loop are contiguous (the end bound of
slice `i+1` equals the start bound of slice `i` plus exactly one
second) and pairwise non-overlapping; and whenever `W` does not divide
86399 their inclusive `[windowEnd, windowStart]` ranges cover exactly
`[D 00:00:00, D 23:59:59]`, whether or not `W` divides 86400.  (The
divisibility proviso is forced by `planner_cover_gap_at_w86399`: when
`W ∣ 86399` the loop `while cursor < end_time` stops one window early
and the day's final second is covered by no window.) -/
theorem planner_contiguous_cover (W y m d : Int) (hW : 0 < W) :
    List.Chain' (fun a b => b.windowEnd = a.windowStart + 1) (dayWindows W y m d)
    ∧ List.Pairwise (fun a b => a.windowStart < b.windowEnd) (dayWindows W y m d)
    ∧ (¬ W ∣ 86399 →
        ∀ t : Int, (dayStartEpoch y m d ≤ t ∧ t ≤ dayEndEpoch y m d) ↔
          ∃ w ∈ dayWindows W y m d, w.windowEnd ≤ t ∧ t ≤ w.windowStart) := by
  have hes := dayEnd_sub_dayStart y m d
  simp only [dayWindows, planWindows]
  refine ⟨planWindowsAux_chain hW _ _, planWindowsAux_pairwise hW _ _, ?_⟩
  intro hdvd t
  constructor
  · rintro ⟨h1, h2⟩
    exact planWindowsAux_cover hW _ _ t (by omega) h1 h2 (by rw [hes]; exact hdvd)
  · rintro ⟨w, hw, h1, h2⟩
    have := mem_planWindowsAux hW _ _ w hw
    constructor <;> omega

/-- C1 counterexample: for the date 2024-10-31 and window size
`W = 86399` (which divides 86399) the instant `D 23:59:59` lies in the
day yet no emitted window covers it, so the coverage part of the claim
is false as stated for arbitrary `W > 0`. -/
theorem planner_cover_gap_at_w86399 :
    (dayStartEpoch 2024 10 31 ≤ dayEndEpoch 2024 10 31
      ∧ dayEndEpoch 2024 10 31 ≤ dayEndEpoch 2024 10 31)
    ∧ ∀ w ∈ dayWindows 86399 2024 10 31,
        ¬ (w.windowEnd ≤ dayEndEpoch 2024 10 31
            ∧ dayEndEpoch 2024 10 31 ≤ w.windowStart) := by
  decide

/-- C6 (amended): for every date and `W > 0`, every emitted window
except possibly the last has inclusive width exactly `W`, every window
has width at most `W`, and when `W` does not divide 86399 the last
window's start bound is clipped precisely to the day's final second.
(The proviso is forced by `planner_last_window_not_clipped_at_w86399`:
when `W ∣ 86399` the last window ends at `23:59:58`, one second short
of the day boundary.) -/
theorem planner_window_widths (W y m d : Int) (hW : 0 < W) :
    (∀ w ∈ (dayWindows W y m d).dropLast, windowWidth w = W)
    ∧ (∀ w ∈ dayWindows W y m d, windowWidth w ≤ W)
    ∧ (¬ W ∣ 86399 → ∀ w, (dayWindows W y m d).getLast? = some w →
        w.windowStart = dayEndEpoch y m d) := by
  have hes := dayEnd_sub_dayStart y m d
  simp only [dayWindows, planWindows]
  refine ⟨?_, ?_, ?_⟩
  · intro w hw
    exact planWindowsAux_dropLast_width hW _ _ w hw
  · intro w hw
    have := mem_planWindowsAux hW _ _ w hw
    simp only [windowWidth]
    omega
  · intro hdvd w hw
    obtain ⟨w2, hw2, hst⟩ :=
      @planWindowsAux_getLast W (dayEndEpoch y m d) hW
        ((dayEndEpoch y m d - dayStartEpoch y m d).toNat + 1)
        (dayStartEpoch y m d) (by omega) (by omega) (by rw [hes]; exact hdvd)
    rw [hw] at hw2
    have h := Option.some.inj hw2
    rw [h]
    exact hst

/-- C6 counterexample: for the date 2024-10-31 and window size
`W = 86399` the single emitted window is `[00:00:00, 23:59:58]`: its
start bound is not the day's final second, so the "clipped precisely to
the day's final second" part of the claim is false as stated. -/
theorem planner_last_window_not_clipped_at_w86399 :
    (dayWindows 86399 2024 10 31).getLast? =
      some ⟨dayStartEpoch 2024 10 31, dayEndEpoch 2024 10 31 - 1⟩
    ∧ dayEndEpoch 2024 10 31 - 1 ≠ dayEndEpoch 2024 10 31 := by
  decide

/-- C7: for the input date 2024-10-31 and window size `W = 30` the
planning loop emits exactly 2880 windows and the last window has
inclusive width exactly 30 seconds (86400 is divisible by 30, so no
clipping occurs). -/
theorem planner_2024_10_31_w30 :
    (dayWindows 30 2024 10 31).length = 2880
    ∧ (dayWindows 30 2024 10 31).getLast?.map windowWidth = some 30 := by
  have hes := dayEnd_sub_dayStart 2024 10 31
  have hW : (0 : Int) < 30 := by norm_num
  have hlen : (dayWindows 30 2024 10 31).length = 2880 := by
    simp only [dayWindows, planWindows]
    rw [planWindowsAux_length hW _ _ (by omega)]
    have h1 : dayEndEpoch 2024 10 31 - dayStartEpoch 2024 10 31 + 30 - 1 = 86428 := by
      omega
    rw [h1]
    decide
  refine ⟨hlen, ?_⟩
  have hne : dayWindows 30 2024 10 31 ≠ [] := by
    intro h
    rw [h] at hlen
    simp at hlen
  have hmem := List.getLast_mem hne
  have hdvd : (30 : Int) ∣ (dayEndEpoch 2024 10 31 - dayStartEpoch 2024 10 31 + 1) := by
    rw [show dayEndEpoch 2024 10 31 - dayStartEpoch 2024 10 31 + 1 = 86400 by omega]
    decide
  have hmem2 : (dayWindows 30 2024 10 31).getLast hne ∈
      planWindowsAux 30 (dayEndEpoch 2024 10 31)
        ((dayEndEpoch 2024 10 31 - dayStartEpoch 2024 10 31).toNat + 1)
        (dayStartEpoch 2024 10 31) := by
    simpa only [dayWindows, planWindows] using hmem
  have hwidth := planWindowsAux_width_dvd hW _ (dayStartEpoch 2024 10 31) hdvd _ hmem2
  rw [List.getLast?_eq_getLast _ hne, Option.map_some']
  simp only [Option.some.injEq, windowWidth]
  omega

/-- C5: the code has no configuration-time validation at all.
`ApiConfig` is a plain dataclass and `IvWikipediaData.__init__` stores
whatever configuration it is given, so `tumbling_window_size = 0` is
accepted unchanged; the planning loop then immediately constructs the
degenerate window `[dayStart, dayStart - 1]` with
`windowStart < windowEnd` (and, in the source, never terminates).  This
contradicts the claim that such a configuration is rejected at
configuration time before any window is planned. -/
theorem config_not_validated :
    (ivWikipediaDataInit
        (some ⟨"https://en.wikipedia.org/w/api.php", 500, 0⟩)).1.tumbling_window_size = 0
    ∧ (dayWindows 0 2024 10 31).head? =
        some ⟨dayStartEpoch 2024 10 31, dayStartEpoch 2024 10 31 - 1⟩
    ∧ dayStartEpoch 2024 10 31 - 1 < dayStartEpoch 2024 10 31 := by
  refine ⟨rfl, ?_, by decide⟩
  decide

/-! ### Fetch lemmas -/

theorem fetch_of_bad_status (cfg : ApiConfig) (oracle : ApiParams → Response)
    (startTime endTime : Int)
    (h : (oracle (sentParams cfg startTime endTime)).statusCode ≠ 200) :
    fetchTumblingWindowData cfg oracle startTime endTime =
      .error (.requestFailed (oracle (sentParams cfg startTime endTime)).statusCode
        (oracle (sentParams cfg startTime endTime)).body) := by
  simp only [fetchTumblingWindowData]
  rw [if_pos h]

theorem fetch_malformed (cfg : ApiConfig) (oracle : ApiParams → Response)
    (startTime endTime : Int)
    (h200 : (oracle (sentParams cfg startTime endTime)).statusCode = 200)
    (hrec : (oracle (sentParams cfg startTime endTime)).records = none) :
    fetchTumblingWindowData cfg oracle startTime endTime = .error .malformedResponse := by
  simp only [fetchTumblingWindowData, hrec]
  rw [if_neg (by simp [h200])]

theorem fetch_saturated (cfg : ApiConfig) (oracle : ApiParams → Response)
    (startTime endTime : Int) (rs : List EditRow)
    (h200 : (oracle (sentParams cfg startTime endTime)).statusCode = 200)
    (hrec : (oracle (sentParams cfg startTime endTime)).records = some rs)
    (hlen : rs.length = cfg.limit) :
    fetchTumblingWindowData cfg oracle startTime endTime = .error .windowSaturated := by
  simp only [fetchTumblingWindowData, hrec]
  rw [if_neg (by simp [h200]), if_pos hlen]

theorem fetch_of_ok_records (cfg : ApiConfig) (oracle : ApiParams → Response)
    (startTime endTime : Int) (rs : List EditRow)
    (h200 : (oracle (sentParams cfg startTime endTime)).statusCode = 200)
    (hrec : (oracle (sentParams cfg startTime endTime)).records = some rs)
    (hlen : rs.length ≠ cfg.limit) :
    fetchTumblingWindowData cfg oracle startTime endTime = .ok rs := by
  simp only [fetchTumblingWindowData, hrec]
  rw [if_neg (by simp [h200]), if_neg hlen]

theorem fetch_ok_inv (cfg : ApiConfig) (oracle : ApiParams → Response)
    (startTime endTime : Int) (rs : List EditRow)
    (h : fetchTumblingWindowData cfg oracle startTime endTime = .ok rs) :
    (oracle (sentParams cfg startTime endTime)).statusCode = 200
    ∧ (oracle (sentParams cfg startTime endTime)).records = some rs
    ∧ rs.length ≠ cfg.limit := by
  by_cases h200 : (oracle (sentParams cfg startTime endTime)).statusCode = 200
  · rcases hrec : (oracle (sentParams cfg startTime endTime)).records with _ | rs2
    · rw [fetch_malformed cfg oracle startTime endTime h200 hrec] at h
      simp at h
    · by_cases hlen : rs2.length = cfg.limit
      · rw [fetch_saturated cfg oracle startTime endTime rs2 h200 hrec hlen] at h
        simp at h
      · rw [fetch_of_ok_records cfg oracle startTime endTime rs2 h200 hrec hlen] at h
        injection h with h2
        rw [← h2]
        exact ⟨h200, rfl, hlen⟩
  · rw [fetch_of_bad_status cfg oracle startTime endTime h200] at h
    simp at h

/-- C2: for every fetched window, the fetch fails with the
window-saturated fatal error if and only if the parsed batch size
equals exactly the configured per-request limit, and every batch
strictly smaller than the limit is returned successfully (source lines
159-168: `if len(window_df) == self.config.limit: raise SystemExit`).
-/
theorem window_saturated_iff (cfg : ApiConfig) (oracle : ApiParams → Response)
    (startTime endTime : Int) (rs : List EditRow)
    (h200 : (oracle (sentParams cfg startTime endTime)).statusCode = 200)
    (hrec : (oracle (sentParams cfg startTime endTime)).records = some rs) :
    (fetchTumblingWindowData cfg oracle startTime endTime = .error .windowSaturated
      ↔ rs.length = cfg.limit)
    ∧ (rs.length < cfg.limit →
        fetchTumblingWindowData cfg oracle startTime endTime = .ok rs) := by
  constructor
  · constructor
    · intro h
      by_contra hlen
      rw [fetch_of_ok_records cfg oracle startTime endTime rs h200 hrec hlen] at h
      simp at h
    · intro hlen
      exact fetch_saturated cfg oracle startTime endTime rs h200 hrec hlen
  · intro hlt
    exact fetch_of_ok_records cfg oracle startTime endTime rs h200 hrec (by omega)

/-! ### Run lemmas: the interleaved loop equals planning then fetching -/

theorem getApiDataAux_eq_processWindows (cfg : ApiConfig)
    (oracle : ApiParams → Response) (e : Int) :
    ∀ (n : Nat) (c : Int) (df : List EditRow) (req : List ApiParams),
      getApiDataAux cfg oracle e n c df req =
        processWindows cfg oracle (planWindowsAux cfg.tumbling_window_size e n c)
          df req := by
  intro n
  induction n with
  | zero =>
      intro c df req
      simp [getApiDataAux, planWindowsAux, processWindows]
  | succ n ih =>
      intro c df req
      by_cases hc : c < e
      · rw [planWindowsAux_cons _ e n c hc]
        simp only [getApiDataAux, processWindows, if_pos hc]
        rcases hf : fetchTumblingWindowData cfg oracle c
            (min (c + cfg.tumbling_window_size - 1) e) with err | batch
        · simp only [hf]
        · simp only [hf]
          exact ih (c + cfg.tumbling_window_size) (df ++ batch)
            (req ++ [sentParams cfg c (min (c + cfg.tumbling_window_size - 1) e)])
      · rw [planWindowsAux_nil _ e _ c hc]
        simp [getApiDataAux, processWindows, hc]

theorem getApiData_eq (cfg : ApiConfig) (oracle : ApiParams → Response)
    (y m d : Int) :
    getApiData cfg oracle y m d =
      processWindows cfg oracle (dayWindows cfg.tumbling_window_size y m d) [] [] := by
  simp only [getApiData, dayWindows, planWindows]
  exact getApiDataAux_eq_processWindows cfg oracle _ _ _ [] []

theorem processWindows_ok (cfg : ApiConfig) (oracle : ApiParams → Response) :
    ∀ (ws : List WindowSpec) (df : List EditRow) (req : List ApiParams)
      (df2 : List EditRow) (req2 : List ApiParams),
      processWindows cfg oracle ws df req = ⟨.ok df2, req2⟩ →
      df2 = df ++ (ws.map (batchOf cfg oracle)).flatten
      ∧ req2 = req ++ ws.map (fun w => sentParams cfg w.windowEnd w.windowStart)
      ∧ ∀ w ∈ ws, fetchTumblingWindowData cfg oracle w.windowEnd w.windowStart
          = .ok (batchOf cfg oracle w) := by
  intro ws
  induction ws with
  | nil =>
      intro df req df2 req2 h
      simp only [processWindows, RunResult.mk.injEq, Except.ok.injEq] at h
      obtain ⟨h1, h2⟩ := h
      subst h1
      subst h2
      simp
  | cons w ws ih =>
      intro df req df2 req2 h
      simp only [processWindows] at h
      rcases hf : fetchTumblingWindowData cfg oracle w.windowEnd w.windowStart
        with err | batch
      · rw [hf] at h
        simp at h
      · rw [hf] at h
        obtain ⟨h1, h2, h3⟩ :=
          ih (df ++ batch) (req ++ [sentParams cfg w.windowEnd w.windowStart]) df2 req2 h
        have hbatch : batchOf cfg oracle w = batch := by
          obtain ⟨_, hrec, _⟩ := fetch_ok_inv cfg oracle w.windowEnd w.windowStart batch hf
          simp [batchOf, responseAt, hrec]
        refine ⟨?_, ?_, ?_⟩
        · rw [h1]
          simp [hbatch, List.append_assoc]
        · rw [h2]
          simp
        · intro w2 hw2
          rcases List.mem_cons.mp hw2 with rfl | hw3
          · rw [hbatch]
            exact hf
          · exact h3 w2 hw3

theorem processWindows_fail (cfg : ApiConfig) (oracle : ApiParams → Response) :
    ∀ (ws : List WindowSpec) (k : Nat) (df : List EditRow) (req : List ApiParams),
      k < ws.length →
      (∀ j, j < k → respOk cfg (responseAt cfg oracle (ws.getD j ⟨0, 0⟩))) →
      (responseAt cfg oracle (ws.getD k ⟨0, 0⟩)).statusCode ≠ 200 →
      processWindows cfg oracle ws df req =
        ⟨.error (.requestFailed
            (responseAt cfg oracle (ws.getD k ⟨0, 0⟩)).statusCode
            (responseAt cfg oracle (ws.getD k ⟨0, 0⟩)).body),
          req ++ (ws.take (k + 1)).map
            (fun w => sentParams cfg w.windowEnd w.windowStart)⟩ := by
  intro ws
  induction ws with
  | nil =>
      intro k df req hk
      simp at hk
  | cons w ws ih =>
      intro k df req hk hpre hfail
      cases k with
      | zero =>
          have hfl : (oracle (sentParams cfg w.windowEnd w.windowStart)).statusCode ≠ 200 := by
            simpa [responseAt] using hfail
          simp only [processWindows, fetch_of_bad_status cfg oracle _ _ hfl]
          simp [responseAt]
      | succ k2 =>
          have h0 : respOk cfg (responseAt cfg oracle w) := by
            simpa using hpre 0 (Nat.succ_pos k2)
          obtain ⟨h200, rs, hrec, hlen⟩ := h0
          have hfetch := fetch_of_ok_records cfg oracle w.windowEnd w.windowStart rs
            (by simpa [responseAt] using h200) (by simpa [responseAt] using hrec) hlen
          simp only [processWindows, hfetch]
          rw [ih k2 (df ++ rs) (req ++ [sentParams cfg w.windowEnd w.windowStart])
            (by simpa using hk)
            (by
              intro j hj
              simpa using hpre (j + 1) (by omega))
            (by simpa using hfail)]
          simp [List.take_succ_cons]

theorem run_ok_join (cfg : ApiConfig) (oracle : ApiParams → Response)
    (y m d : Int) (df : List EditRow)
    (h : (getApiData cfg oracle y m d).outcome = .ok df) :
    df = ((dayWindows cfg.tumbling_window_size y m d).map (batchOf cfg oracle)).flatten
    ∧ ∀ w ∈ dayWindows cfg.tumbling_window_size y m d,
        fetchTumblingWindowData cfg oracle w.windowEnd w.windowStart
          = .ok (batchOf cfg oracle w) := by
  rw [getApiData_eq] at h
  rcases hpw : processWindows cfg oracle
      (dayWindows cfg.tumbling_window_size y m d) [] [] with ⟨out, req2⟩
  rw [hpw] at h
  have h2 : out = .ok df := h
  obtain ⟨h1, _, h3⟩ := processWindows_ok cfg oracle _ [] [] df req2
    (hpw.trans (by rw [h2]))
  exact ⟨by simpa using h1, h3⟩

theorem processWindows_requested_mem (cfg : ApiConfig) (oracle : ApiParams → Response) :
    ∀ (ws : List WindowSpec) (df : List EditRow) (req : List ApiParams)
      (p : ApiParams),
      p ∈ (processWindows cfg oracle ws df req).requested →
      p ∈ req ∨ ∃ w ∈ ws, p = sentParams cfg w.windowEnd w.windowStart := by
  intro ws
  induction ws with
  | nil =>
      intro df req p hp
      exact Or.inl hp
  | cons w ws ih =>
      intro df req p hp
      simp only [processWindows] at hp
      rcases hf : fetchTumblingWindowData cfg oracle w.windowEnd w.windowStart
        with err | batch
      · rw [hf] at hp
        rcases List.mem_append.mp hp with h | h
        · exact Or.inl h
        · exact Or.inr ⟨w, List.mem_cons_self w ws, by simpa using h⟩
      · rw [hf] at hp
        rcases ih (df ++ batch) (req ++ [sentParams cfg w.windowEnd w.windowStart]) p hp
          with h | ⟨w2, hw2, hp2⟩
        · rcases List.mem_append.mp h with h2 | h2
          · exact Or.inl h2
          · exact Or.inr ⟨w, List.mem_cons_self w ws, by simpa using h2⟩
        · exact Or.inr ⟨w2, List.mem_cons_of_mem w hw2, hp2⟩

/-! ### Run-level claim theorems -/

/-- C3: for every parameter set the run sends, there is a planned
window such that `rcstart` is the window's chronologically later bound
(`windowStart`), `rcend` its chronologically earlier bound
(`windowEnd`), `rclimit` is the configured limit, and `rcprop` is the
fixed property set — despite the argument swap between
`_fetch_tumbling_window_data(start_time, end_time)` and
`_get_api_params(end_time, start_time)`. -/
theorem api_params_correct (cfg : ApiConfig) (oracle : ApiParams → Response)
    (y m d : Int) (hW : 0 < cfg.tumbling_window_size) :
    ∀ p ∈ (getApiData cfg oracle y m d).requested,
      ∃ w ∈ dayWindows cfg.tumbling_window_size y m d,
        p = sentParams cfg w.windowEnd w.windowStart
        ∧ p.rcstart = w.windowStart
        ∧ p.rcend = w.windowEnd
        ∧ w.windowEnd ≤ w.windowStart
        ∧ p.rclimit = cfg.limit
        ∧ p.rcprop = "title|timestamp|userid|user|comment|flags|sizes" := by
  intro p hp
  rw [getApiData_eq] at hp
  rcases processWindows_requested_mem cfg oracle _ [] [] p hp with h | ⟨w, hw, rfl⟩
  · simp at h
  · have hmem := mem_planWindowsAux hW _ _ w
      (by simpa only [dayWindows, planWindows] using hw)
    exact ⟨w, hw, rfl, rfl, rfl, hmem.2.1, rfl, rfl⟩

/-- C4: if the first non-success response (status ≠ 200) occurs at the
`k`-th planned window and all earlier windows succeeded, the run fails
with a request-failed error carrying that response's status and body,
only the windows up to and including the `k`-th are requested (the
remaining windows are never fetched), and the `__main__` driver leaves
the analytical store unchanged (publishing happens only after all
windows succeed). -/
theorem run_aborts_on_request_failure (cfg : ApiConfig)
    (oracle : ApiParams → Response) (y m d : Int)
    (tableName schema : String) (store : Store) (k : Nat)
    (hk : k < (dayWindows cfg.tumbling_window_size y m d).length)
    (hpre : ∀ j, j < k → respOk cfg (responseAt cfg oracle
        ((dayWindows cfg.tumbling_window_size y m d).getD j ⟨0, 0⟩)))
    (hfail : (responseAt cfg oracle
        ((dayWindows cfg.tumbling_window_size y m d).getD k ⟨0, 0⟩)).statusCode ≠ 200) :
    (getApiData cfg oracle y m d).outcome =
      .error (.requestFailed
        (responseAt cfg oracle
          ((dayWindows cfg.tumbling_window_size y m d).getD k ⟨0, 0⟩)).statusCode
        (responseAt cfg oracle
          ((dayWindows cfg.tumbling_window_size y m d).getD k ⟨0, 0⟩)).body)
    ∧ (getApiData cfg oracle y m d).requested =
        ((dayWindows cfg.tumbling_window_size y m d).take (k + 1)).map
          (fun w => sentParams cfg w.windowEnd w.windowStart)
    ∧ runPipeline cfg oracle y m d tableName schema store = store := by
  have hrun := getApiData_eq cfg oracle y m d
  have hfl := processWindows_fail cfg oracle _ k [] [] hk hpre hfail
  refine ⟨?_, ?_, ?_⟩
  · rw [hrun, hfl]
  · rw [hrun, hfl]
    simp
  · simp only [runPipeline, hrun, hfl]

/-- C8: accumulation is order-preserving: when the run succeeds, the
accumulated table equals the concatenation of the per-window parsed
batches in chronological window order, each batch's internal row order
preserved (`pd.concat([self.df, window_df])` appends, source line
206). -/
theorem merge_order_preserved (cfg : ApiConfig) (oracle : ApiParams → Response)
    (y m d : Int) (df : List EditRow)
    (h : (getApiData cfg oracle y m d).outcome = .ok df) :
    df = ((dayWindows cfg.tumbling_window_size y m d).map
      (batchOf cfg oracle)).flatten :=
  (run_ok_join cfg oracle y m d df h).1

/-- C9 (amended): a response row missing an expected field (e.g.
`userid`) is carried into the accumulated table verbatim — the missing
field stays null and the row is retained, not dropped and not fatal.
In fact no row of any parsed batch is ever dropped: every row of every
window's batch appears in the final table
(`pd.DataFrame(edit_records)` keeps one row per response object,
however incomplete).  The claim's drop-with-a-logged-warning path for
unparseable rows does not exist in the code; see
`empty_row_not_dropped`. -/
theorem missing_field_rows_retained (cfg : ApiConfig)
    (oracle : ApiParams → Response) (y m d : Int) (df : List EditRow)
    (h : (getApiData cfg oracle y m d).outcome = .ok df)
    (w : WindowSpec) (hw : w ∈ dayWindows cfg.tumbling_window_size y m d)
    (r : EditRow) (hr : r ∈ batchOf cfg oracle w) :
    r ∈ df := by
  obtain ⟨hdf, _⟩ := run_ok_join cfg oracle y m d df h
  rw [hdf]
  exact List.mem_flatten.mpr ⟨batchOf cfg oracle w, List.mem_map_of_mem _ hw, hr⟩

/-- C10: assuming the remote API honours its per-call cap (no response
batch exceeds `rclimit = cfg.limit`, spec §1/§4.2), every batch merged
by a successful run has size strictly below the limit — the saturation
check aborts before any merge of a full batch — and hence the final
table has at most `n × (limit − 1)` rows for `n` planned windows. -/
theorem batch_size_invariant (cfg : ApiConfig) (oracle : ApiParams → Response)
    (y m d : Int)
    (hcap : ∀ p rs, (oracle p).records = some rs → rs.length ≤ cfg.limit)
    (df : List EditRow)
    (h : (getApiData cfg oracle y m d).outcome = .ok df) :
    (∀ w ∈ dayWindows cfg.tumbling_window_size y m d,
        (batchOf cfg oracle w).length < cfg.limit)
    ∧ df.length ≤
        (dayWindows cfg.tumbling_window_size y m d).length * (cfg.limit - 1) := by
  obtain ⟨hdf, hfetch⟩ := run_ok_join cfg oracle y m d df h
  have hlt : ∀ w ∈ dayWindows cfg.tumbling_window_size y m d,
      (batchOf cfg oracle w).length < cfg.limit := by
    intro w hw
    obtain ⟨_, hrec, hne⟩ :=
      fetch_ok_inv cfg oracle w.windowEnd w.windowStart _ (hfetch w hw)
    have := hcap _ _ hrec
    omega
  refine ⟨hlt, ?_⟩
  rw [hdf, List.length_flatten]
  have hbound : ∀ x ∈ ((dayWindows cfg.tumbling_window_size y m d).map
      (batchOf cfg oracle)).map List.length, x ≤ cfg.limit - 1 := by
    intro x hx
    obtain ⟨b, hb, rfl⟩ := List.mem_map.mp hx
    obtain ⟨w, hw, rfl⟩ := List.mem_map.mp hb
    have := hlt w hw
    omega
  have hsum := List.sum_le_card_nsmul _ _ hbound
  simpa [List.length_map] using hsum

/-- C9 counterexample: a row with no recognizable fields at all
(`emptyRow`, the JSON object with none of the expected keys) arrives in
the second window's batch and is retained in the final accumulated
table, `.ok [sampleRow, emptyRow]` — it is not dropped, and no warning
path exists.  This refutes the claim's assertion that rows entirely
unparseable as a record are dropped with a logged warning. -/
theorem empty_row_not_dropped :
    emptyRow ∈ batchOf cfg43200 oracleHalfDay w1Oct31
    ∧ w1Oct31 ∈ dayWindows cfg43200.tumbling_window_size 2024 10 31
    ∧ (getApiData cfg43200 oracleHalfDay 2024 10 31).outcome
        = .ok [sampleRow, emptyRow]
    ∧ emptyRow ∈ [sampleRow, emptyRow] := by
  refine ⟨by decide, by decide, by decide, by decide⟩

/-! ### Witnesses -/

/-- Witness for C1 at `W = 43200`, date 2024-10-31. -/
theorem planner_contiguous_cover_witness :
    (0 : Int) < 43200 ∧ ¬ (43200 : Int) ∣ 86399
    ∧ (List.Chain' (fun a b => b.windowEnd = a.windowStart + 1)
        (dayWindows 43200 2024 10 31)
      ∧ List.Pairwise (fun a b => a.windowStart < b.windowEnd)
          (dayWindows 43200 2024 10 31)
      ∧ (¬ (43200 : Int) ∣ 86399 →
          ∀ t : Int, (dayStartEpoch 2024 10 31 ≤ t ∧ t ≤ dayEndEpoch 2024 10 31) ↔
            ∃ w ∈ dayWindows 43200 2024 10 31,
              w.windowEnd ≤ t ∧ t ≤ w.windowStart)) :=
  ⟨by norm_num, by rintro ⟨k, hk⟩; omega,
    planner_contiguous_cover 43200 2024 10 31 (by norm_num)⟩

/-- Witness for C2: a batch of one row (strictly below the limit of
500) is not saturated and is returned unchanged. -/
theorem window_saturated_iff_witness :
    (oracleHalfDay (sentParams cfg43200 startOct31 (startOct31 + 43199))).statusCode = 200
    ∧ (oracleHalfDay (sentParams cfg43200 startOct31 (startOct31 + 43199))).records
        = some [sampleRow]
    ∧ ((fetchTumblingWindowData cfg43200 oracleHalfDay startOct31 (startOct31 + 43199)
          = .error .windowSaturated ↔ ([sampleRow] : List EditRow).length = cfg43200.limit)
      ∧ (([sampleRow] : List EditRow).length < cfg43200.limit →
          fetchTumblingWindowData cfg43200 oracleHalfDay startOct31 (startOct31 + 43199)
            = .ok [sampleRow])) :=
  ⟨by decide, by decide,
    window_saturated_iff cfg43200 oracleHalfDay startOct31 (startOct31 + 43199)
      [sampleRow] (by decide) (by decide)⟩

/-- Witness for C3 at the first sent parameter set of a concrete run. -/
theorem api_params_correct_witness :
    (0 : Int) < cfg43200.tumbling_window_size
    ∧ sentParams cfg43200 startOct31 (startOct31 + 43199)
        ∈ (getApiData cfg43200 oracleHalfDay 2024 10 31).requested
    ∧ ∃ w ∈ dayWindows cfg43200.tumbling_window_size 2024 10 31,
        sentParams cfg43200 startOct31 (startOct31 + 43199)
            = sentParams cfg43200 w.windowEnd w.windowStart
        ∧ (sentParams cfg43200 startOct31 (startOct31 + 43199)).rcstart = w.windowStart
        ∧ (sentParams cfg43200 startOct31 (startOct31 + 43199)).rcend = w.windowEnd
        ∧ w.windowEnd ≤ w.windowStart
        ∧ (sentParams cfg43200 startOct31 (startOct31 + 43199)).rclimit = cfg43200.limit
        ∧ (sentParams cfg43200 startOct31 (startOct31 + 43199)).rcprop
            = "title|timestamp|userid|user|comment|flags|sizes" :=
  ⟨by decide, by decide,
    api_params_correct cfg43200 oracleHalfDay 2024 10 31 (by decide) _ (by decide)⟩

/-- Witness for C4: the very first window's request answers 503, the
run aborts with that status and body, only one parameter set was sent,
and the store is untouched. -/
theorem run_aborts_on_request_failure_witness :
    0 < (dayWindows cfg43200.tumbling_window_size 2024 10 31).length
    ∧ (responseAt cfg43200 oracle503
        ((dayWindows cfg43200.tumbling_window_size 2024 10 31).getD 0 ⟨0, 0⟩)).statusCode ≠ 200
    ∧ ((getApiData cfg43200 oracle503 2024 10 31).outcome =
        .error (.requestFailed
          (responseAt cfg43200 oracle503
            ((dayWindows cfg43200.tumbling_window_size 2024 10 31).getD 0 ⟨0, 0⟩)).statusCode
          (responseAt cfg43200 oracle503
            ((dayWindows cfg43200.tumbling_window_size 2024 10 31).getD 0 ⟨0, 0⟩)).body)
      ∧ (getApiData cfg43200 oracle503 2024 10 31).requested =
          ((dayWindows cfg43200.tumbling_window_size 2024 10 31).take 1).map
            (fun w => sentParams cfg43200 w.windowEnd w.windowStart)
      ∧ runPipeline cfg43200 oracle503 2024 10 31 "wiki_edits" "iv" ⟨[]⟩ = ⟨[]⟩) :=
  ⟨by decide, by decide,
    run_aborts_on_request_failure cfg43200 oracle503 2024 10 31 "wiki_edits" "iv"
      ⟨[]⟩ 0 (by decide) (fun j hj => absurd hj (Nat.not_lt_zero j)) (by decide)⟩

/-- Witness for C8: a successful two-window run accumulates exactly the
two batches in window order. -/
theorem merge_order_preserved_witness :
    (getApiData cfg43200 oracleHalfDay 2024 10 31).outcome = .ok [sampleRow, emptyRow]
    ∧ [sampleRow, emptyRow] =
        ((dayWindows cfg43200.tumbling_window_size 2024 10 31).map
          (batchOf cfg43200 oracleHalfDay)).flatten :=
  ⟨by decide,
    merge_order_preserved cfg43200 oracleHalfDay 2024 10 31 [sampleRow, emptyRow]
      (by decide)⟩

/-- Witness for C9: `sampleRow` arrives without a `userid` field and is
retained in the final table with that field still null. -/
theorem missing_field_rows_retained_witness :
    (getApiData cfg43200 oracleHalfDay 2024 10 31).outcome = .ok [sampleRow, emptyRow]
    ∧ w0Oct31 ∈ dayWindows cfg43200.tumbling_window_size 2024 10 31
    ∧ sampleRow ∈ batchOf cfg43200 oracleHalfDay w0Oct31
    ∧ sampleRow.userid = none
    ∧ sampleRow ∈ [sampleRow, emptyRow] :=
  ⟨by decide, by decide, by decide, rfl,
    missing_field_rows_retained cfg43200 oracleHalfDay 2024 10 31
      [sampleRow, emptyRow] (by decide) w0Oct31 (by decide) sampleRow (by decide)⟩

/-- Witness for C6 at `W = 43200`, date 2024-10-31. -/
theorem planner_window_widths_witness :
    (0 : Int) < 43200
    ∧ ((∀ w ∈ (dayWindows 43200 2024 10 31).dropLast, windowWidth w = 43200)
      ∧ (∀ w ∈ dayWindows 43200 2024 10 31, windowWidth w ≤ 43200)
      ∧ (¬ (43200 : Int) ∣ 86399 →
          ∀ w, (dayWindows 43200 2024 10 31).getLast? = some w →
            w.windowStart = dayEndEpoch 2024 10 31)) :=
  ⟨by norm_num, planner_window_widths 43200 2024 10 31 (by norm_num)⟩

/-- Witness for C10: a run whose batches all have one row satisfies the
per-batch bound and the total bound. -/
theorem batch_size_invariant_witness :
    (∀ p rs, (oracleHalfDay p).records = some rs → rs.length ≤ cfg43200.limit)
    ∧ (getApiData cfg43200 oracleHalfDay 2024 10 31).outcome = .ok [sampleRow, emptyRow]
    ∧ ((∀ w ∈ dayWindows cfg43200.tumbling_window_size 2024 10 31,
          (batchOf cfg43200 oracleHalfDay w).length < cfg43200.limit)
      ∧ ([sampleRow, emptyRow] : List EditRow).length ≤
          (dayWindows cfg43200.tumbling_window_size 2024 10 31).length *
            (cfg43200.limit - 1)) := by
  have hcap : ∀ p rs, (oracleHalfDay p).records = some rs →
      rs.length ≤ cfg43200.limit := by
    intro p rs h
    simp only [oracleHalfDay] at h
    split at h <;> (injection h with h2; subst h2) <;> decide
  exact ⟨hcap, by decide,
    batch_size_invariant cfg43200 oracleHalfDay 2024 10 31 hcap
      [sampleRow, emptyRow] (by decide)⟩

end IvWiki
